import Mathlib

/-!
Shallow embedding of the AEMET HomeAssistant weather component
(`src/aemet/aemet.py` and `src/aemet/weather.py`) and verification of the
specification's claims about it.

Conventions used throughout:
* Python floats are modelled as rationals (`ℚ`); timestamps as integer
  seconds (`ℤ`), so `timedelta(minutes=5)` is `300`.
* Python dicts are insertion-ordered association lists; updating an
  existing key keeps its position, a new key is appended — exactly the
  CPython dict semantics the source relies on.
* Fallible code paths return `Except PyErr`; each `.error` constructor names
  the exception the CPython interpreter would raise on that path.
* The external `vincenty` geodesic function is an opaque parameter
  `vinc : Loc → Loc → Option ℚ` (it returns `None` when the iteration fails
  to converge); the code under verification never inspects its value beyond
  comparisons, so every theorem is proved for all such functions.
-/

/-- Exceptions raised by the modelled Python code paths. -/
inductive PyErr where
  | valueError
  | typeError
  | keyError
  | indexError
  | attributeError
deriving DecidableEq, Repr

/-- JSON-like Python values as they appear in the AEMET payloads. -/
inductive PyVal where
  | vstr : String → PyVal
  | vnum : ℚ → PyVal
  | vnone : PyVal
  | vlist : List PyVal → PyVal
  | vdict : List (String × PyVal) → PyVal
deriving Repr

/-- A Python dict with string keys, in insertion order. -/
abbrev PyDict := List (String × PyVal)

/-- Dict lookup (`d[k]` / `d.get(k)` yielding `None` for a missing key is
`alGet d k = none`). Python dicts never hold duplicate keys; association
lists built with `alSet` below preserve that invariant. -/
def alGet : PyDict → String → Option PyVal
  | [], _ => none
  | (k, v) :: rest, key => if k = key then some v else alGet rest key

/-- Dict assignment `d[k] = v`: updates an existing key in place (keeping its
position) or appends a fresh key, as CPython dicts do. -/
def alSet : PyDict → String → PyVal → PyDict
  | [], key, v => [(key, v)]
  | (k, w) :: rest, key, v =>
    if k = key then (key, v) :: rest else (k, w) :: alSet rest key v

/-- `d.get(k)` where a stored `None` and a missing key are indistinguishable
to the caller (both give `None`): Python's `dict.get` default. -/
def pyGet (d : PyDict) (key : String) : PyVal :=
  (alGet d key).getD .vnone

/-- A latitude/longitude pair handed to the distance function. -/
abbrev Loc := ℚ × ℚ

/-- A cleaned catalog entry (city or weather station) as produced by
`AemetMasterRecord._clean_master_data`: canonical field names, numeric
coordinates. -/
structure Entry where
  codigo : String
  nombre : String
  latitud : ℚ
  longitud : ℚ
  altitud : ℚ
deriving DecidableEq, Repr

/-- The two catalog classes accepted by `AemetMasterRecord.__init__`
(`_ENTITIES = ["ciudades", "estaciones"]`; anything else raises). -/
inductive EntityClass where
  | ciudades
  | estaciones
deriving DecidableEq, Repr

/-- An in-memory master-data record: `{"saved": ..., entityClass: [...]}`. -/
structure MasterData where
  saved : ℤ
  entries : List Entry
deriving DecidableEq, Repr

/-- `self.nearest` of `AemetMasterRecord` is either a caller-supplied code
string (pinned), a resolved catalog entry (dict), or `None`. -/
inductive Nearest where
  | rawCode : String → Nearest
  | entry : Entry → Nearest
  | null : Nearest
deriving DecidableEq, Repr

def Nearest.isNull : Nearest → Bool
  | .null => true
  | _ => false

/-- The fields of `AemetMasterRecord` that the resolution logic reads. -/
structure MasterState where
  entityClass : EntityClass
  data : Option MasterData
  nearest : Nearest
deriving DecidableEq, Repr

/-- Inner helper `distance` of `_nearest_location_iterate`
(`aemet.py:333-344`): returns `None` when either point is `None` or when
`vincenty` itself returns `None`. -/
def distance (vinc : Loc → Loc → Option ℚ) (point1 point2 : Option Loc) :
    Option ℚ :=
  match point1, point2 with
  | some p1, some p2 => vinc p1 p2
  | _, _ => none

/-- The scan loop of `nearest_location` (`aemet.py:353-359`): threads
`nearest_distance`/`nearest_codigo` through the entry list.  The guard is
`nearest_distance is None or point_distance < nearest_distance`; when
`nearest_distance` is a float and `point_distance` is `None` the comparison
`None < float` raises `TypeError` in Python 3. -/
def nearestLoop (vinc : Loc → Loc → Option ℚ) (loc : Option Loc) :
    List Entry → Option ℚ → Option String →
    Except PyErr (Option ℚ × Option String)
  | [], nd, nc => .ok (nd, nc)
  | p :: rest, nd, nc =>
    let pd := distance vinc (some (p.latitud, p.longitud)) loc
    match nd with
    | none => nearestLoop vinc loc rest pd (some p.codigo)
    | some dv =>
      match pd with
      | none => .error .typeError
      | some pv =>
        if pv < dv then nearestLoop vinc loc rest (some pv) (some p.codigo)
        else nearestLoop vinc loc rest nd nc

/-- Inner helper `nearest_location` (`aemet.py:346-364`): scan for the
minimal distance, then return the first entry carrying the recorded code
(`point["codigo"] == nearest_codigo`; when the code is still `None` every
comparison is false and `nearest` stays `None`). -/
def nearest_location (vinc : Loc → Loc → Option ℚ) (list_locations : List Entry)
    (loc : Option Loc) : Except PyErr (Option ℚ × Option Entry) := do
  let (nd, nc) ← nearestLoop vinc loc list_locations none none
  match nc with
  | none => .ok (nd, none)
  | some c => .ok (nd, list_locations.find? (fun p => p.codigo == c))

/-- `AemetMasterRecord._nearest_location_iterate` (`aemet.py:326-372`):
`(None, None)` when no master data is loaded, otherwise the scan above. -/
def nearest_location_iterate (vinc : Loc → Loc → Option ℚ) (st : MasterState)
    (loc : Option Loc) : Except PyErr (Option ℚ × Option Entry) :=
  match st.data with
  | none => .ok (none, none)
  | some md => nearest_location vinc md.entries loc

/-- `AemetMasterRecord.update_distance` (`aemet.py:374-411`).
Step 1: a pinned code string is replaced by the catalog entry carrying it
(`ValueError` if absent; `AttributeError` if no data is loaded, from
`None.get`).  Step 2: if nothing is resolved or `force` is set, run the
nearest search.  Step 3: recompute the vincenty distance to the resolved
entry (subscripting `None` raises `TypeError`; comparing a `None` distance
with `25.0` also raises `TypeError`) and clear the resolution when it
exceeds 25 km for `ciudades` or 40 km for `estaciones`. -/
def update_distance (vinc : Loc → Loc → Option ℚ) (st : MasterState)
    (location : Loc) (force : Bool) : Except PyErr MasterState := do
  let n1 ← match st.nearest with
    | .rawCode c =>
      match st.data with
      | none => Except.error PyErr.attributeError
      | some md =>
        match md.entries.find? (fun v => v.codigo == c) with
        | some v => Except.ok (Nearest.entry v)
        | none => Except.error PyErr.valueError
    | n => Except.ok n
  let n2 ← if n1.isNull || force then do
      let (_, ne) ← nearest_location_iterate vinc { st with nearest := n1 } (some location)
      match ne with
      | some e => Except.ok (Nearest.entry e)
      | none => Except.ok Nearest.null
    else Except.ok n1
  match n2 with
  | .entry e =>
    match vinc location (e.latitud, e.longitud) with
    | none => .error .typeError
    | some d =>
      let n3 := if 25 < d ∧ st.entityClass = .ciudades then Nearest.null else n2
      let n4 := if 40 < d ∧ st.entityClass = .estaciones then Nearest.null else n3
      .ok { st with nearest := n4 }
  | _ => .error .typeError

/-- The catalog-specific plausibility thresholds hard-coded at
`aemet.py:403` and `aemet.py:410`. -/
def plausibilityThreshold : EntityClass → ℚ
  | .ciudades => 25
  | .estaciones => 40

/-! ### Lemmas about the nearest-location scan -/

/-- When `vincenty` succeeds on every pair, the scan loop never raises, and
its recorded code is either the initial one or the code of a scanned entry;
it is non-`none` as soon as the list is non-empty. -/
lemma nearestLoop_total (vinc : Loc → Loc → Option ℚ) (loc : Loc)
    (hv : ∀ p q, (vinc p q).isSome = true) :
    ∀ (l : List Entry) (nd : Option ℚ) (nc : Option String),
      (∀ x, nd = some x → ∃ c, nc = some c) →
      ∃ nd' nc', nearestLoop vinc (some loc) l nd nc = .ok (nd', nc') ∧
        (nc' = nc ∨ ∃ p ∈ l, nc' = some p.codigo) ∧
        (l ≠ [] → ∃ c, nc' = some c) ∧
        (∀ c, nc = some c → ∃ c', nc' = some c') := by
  intro l
  induction l with
  | nil =>
    intro nd nc _
    exact ⟨nd, nc, rfl, Or.inl rfl, fun h => absurd rfl h, fun c hc => ⟨c, hc⟩⟩
  | cons p rest ih =>
    intro nd nc hinv
    obtain ⟨pv, hpv⟩ := Option.isSome_iff_exists.mp (hv (p.latitud, p.longitud) loc)
    have hpd : distance vinc (some (p.latitud, p.longitud)) (some loc) = some pv := hpv
    cases nd with
    | none =>
      obtain ⟨nd', nc', heq, hdisj, -, hkeep⟩ :=
        ih (distance vinc (some (p.latitud, p.longitud)) (some loc))
          (some p.codigo) (fun _ _ => ⟨p.codigo, rfl⟩)
      refine ⟨nd', nc', by simpa [nearestLoop] using heq, ?_, ?_, ?_⟩
      · rcases hdisj with h | ⟨q, hq, h⟩
        · exact Or.inr ⟨p, List.mem_cons_self _ _, h⟩
        · exact Or.inr ⟨q, List.mem_cons_of_mem _ hq, h⟩
      · intro _
        exact hkeep p.codigo rfl
      · intro _ _
        exact hkeep p.codigo rfl
    | some dv =>
      obtain ⟨c0, hc0⟩ := hinv dv rfl
      by_cases hlt : pv < dv
      · obtain ⟨nd', nc', heq, hdisj, -, hkeep⟩ :=
          ih (some pv) (some p.codigo) (fun _ _ => ⟨p.codigo, rfl⟩)
        refine ⟨nd', nc', ?_, ?_, ?_, ?_⟩
        · simpa [nearestLoop, hpd, hlt] using heq
        · rcases hdisj with h | ⟨q, hq, h⟩
          · exact Or.inr ⟨p, List.mem_cons_self _ _, h⟩
          · exact Or.inr ⟨q, List.mem_cons_of_mem _ hq, h⟩
        · intro _
          exact hkeep p.codigo rfl
        · intro _ _
          exact hkeep p.codigo rfl
      · obtain ⟨nd', nc', heq, hdisj, -, hkeep⟩ := ih (some dv) nc hinv
        refine ⟨nd', nc', ?_, ?_, ?_, ?_⟩
        · simpa [nearestLoop, hpd, hlt] using heq
        · rcases hdisj with h | ⟨q, hq, h⟩
          · exact Or.inl h
          · exact Or.inr ⟨q, List.mem_cons_of_mem _ hq, h⟩
        · intro _
          exact hkeep c0 hc0
        · intro c hc
          exact hkeep c hc

/-- With a total `vincenty` and a populated catalog, `nearest_location`
returns some entry of the catalog. -/
lemma nearest_location_total (vinc : Loc → Loc → Option ℚ) (loc : Loc)
    (hv : ∀ p q, (vinc p q).isSome = true)
    (l : List Entry) (hl : l ≠ []) :
    ∃ nd e, nearest_location vinc l (some loc) = .ok (nd, some e) ∧ e ∈ l := by
  obtain ⟨nd', nc', heq, hdisj, hne, -⟩ :=
    nearestLoop_total vinc loc hv l none none (fun x hx => by cases hx)
  obtain ⟨c, hc⟩ := hne hl
  subst hc
  rcases hdisj with h | ⟨p, hp, h⟩
  · cases h
  · injection h with h
    subst h
    have hfind : (l.find? (fun q => q.codigo == p.codigo)).isSome = true := by
      rw [List.find?_isSome]
      exact ⟨p, hp, by simp⟩
    obtain ⟨e, he⟩ := Option.isSome_iff_exists.mp hfind
    refine ⟨nd', e, ?_, List.mem_of_find?_eq_some he⟩
    simp [nearest_location, heq, he, bind, Except.bind]

/-- The final pair of threshold checks of `update_distance` either clears
the resolution or keeps an entry within the catalog threshold. -/
lemma thresholds_sound (ec : EntityClass) (e : Entry) (d : ℚ) :
    (if 40 < d ∧ ec = EntityClass.estaciones then Nearest.null
      else if 25 < d ∧ ec = EntityClass.ciudades then Nearest.null
      else Nearest.entry e) = Nearest.null ∨
    ((if 40 < d ∧ ec = EntityClass.estaciones then Nearest.null
      else if 25 < d ∧ ec = EntityClass.ciudades then Nearest.null
      else Nearest.entry e) = Nearest.entry e ∧ d ≤ plausibilityThreshold ec) := by
  by_cases h2 : 40 < d ∧ ec = EntityClass.estaciones
  · simp [h2]
  · by_cases h1 : 25 < d ∧ ec = EntityClass.ciudades
    · simp [h1, h2]
    · refine Or.inr ⟨by simp [h1, h2], ?_⟩
      cases ec with
      | ciudades =>
        rcases not_and_or.mp h1 with h | h
        · simpa [plausibilityThreshold] using not_lt.mp h
        · exact absurd rfl h
      | estaciones =>
        rcases not_and_or.mp h2 with h | h
        · simpa [plausibilityThreshold] using not_lt.mp h
        · exact absurd rfl h


/-- Evaluation of `update_distance` on the search path: nothing resolved yet
(or `force` set), the scan returns an entry, and `vincenty` succeeds on it. -/
lemma update_distance_search (vinc : Loc → Loc → Option ℚ) (ec : EntityClass)
    (md : MasterData) (loc : Loc) (force : Bool) (nd : Option ℚ) (e : Entry)
    (d : ℚ) (n1 : Nearest)
    (hpin : ∀ c, n1 ≠ Nearest.rawCode c)
    (hgo : (n1.isNull || force) = true)
    (hloc : nearest_location vinc md.entries (some loc) = .ok (nd, some e))
    (hvd : vinc loc (e.latitud, e.longitud) = some d) :
    update_distance vinc ⟨ec, some md, n1⟩ loc force =
      .ok ⟨ec, some md,
        if 40 < d ∧ ec = EntityClass.estaciones then Nearest.null
        else if 25 < d ∧ ec = EntityClass.ciudades then Nearest.null
        else Nearest.entry e⟩ := by
  cases n1 with
  | rawCode c => exact absurd rfl (hpin c)
  | entry e0 =>
    simp only [Nearest.isNull, Bool.false_or] at hgo
    subst hgo
    simp [update_distance, Nearest.isNull, nearest_location_iterate, hloc, hvd,
      bind, Except.bind]
  | null =>
    simp [update_distance, Nearest.isNull, nearest_location_iterate, hloc, hvd,
      bind, Except.bind]

/-- Evaluation of `update_distance` when an entry is already resolved and
`force` is off: only the distance recomputation and threshold checks run. -/
lemma update_distance_keep (vinc : Loc → Loc → Option ℚ) (ec : EntityClass)
    (md : Option MasterData) (loc : Loc) (e0 : Entry) (d : ℚ)
    (hvd : vinc loc (e0.latitud, e0.longitud) = some d) :
    update_distance vinc ⟨ec, md, Nearest.entry e0⟩ loc false =
      .ok ⟨ec, md,
        if 40 < d ∧ ec = EntityClass.estaciones then Nearest.null
        else if 25 < d ∧ ec = EntityClass.ciudades then Nearest.null
        else Nearest.entry e0⟩ := by
  simp [update_distance, Nearest.isNull, hvd, bind, Except.bind]

/-- Evaluation of `update_distance` on the pinned-code path: the code is
found in the catalog, `force` is off, and `vincenty` succeeds. -/
lemma update_distance_pinned_eq (vinc : Loc → Loc → Option ℚ) (ec : EntityClass)
    (md : MasterData) (loc : Loc) (c : String) (e : Entry) (d : ℚ)
    (hf : md.entries.find? (fun v => v.codigo == c) = some e)
    (hvd : vinc loc (e.latitud, e.longitud) = some d) :
    update_distance vinc ⟨ec, some md, Nearest.rawCode c⟩ loc false =
      .ok ⟨ec, some md,
        if 40 < d ∧ ec = EntityClass.estaciones then Nearest.null
        else if 25 < d ∧ ec = EntityClass.ciudades then Nearest.null
        else Nearest.entry e⟩ := by
  simp [update_distance, Nearest.isNull, hf, hvd, bind, Except.bind]

/-- **C1**: for every location with valid coordinates (a `vincenty` that
succeeds on every pair) and every populated catalog, `update_distance`
without a pinned code leaves either no resolution, or an entry whose
recomputed distance to the location is at most the catalog threshold
(25 km for `ciudades`, 40 km for `estaciones`). -/
theorem update_distance_unpinned_threshold (vinc : Loc → Loc → Option ℚ)
    (st : MasterState) (loc : Loc) (force : Bool) (md : MasterData)
    (hv : ∀ p q, (vinc p q).isSome = true)
    (hnp : ∀ c, st.nearest ≠ .rawCode c)
    (hd : st.data = some md) (hne : md.entries ≠ []) :
    ∃ st', update_distance vinc st loc force = .ok st' ∧
      (st'.nearest = .null ∨
        ∃ e d, st'.nearest = .entry e ∧
          vinc loc (e.latitud, e.longitud) = some d ∧
          d ≤ plausibilityThreshold st.entityClass) := by
  obtain ⟨ec, data, nr⟩ := st
  simp only at hd hnp ⊢
  subst hd
  have hfin : ∀ e d, vinc loc (e.latitud, e.longitud) = some d →
      (if 40 < d ∧ ec = EntityClass.estaciones then Nearest.null
        else if 25 < d ∧ ec = EntityClass.ciudades then Nearest.null
        else Nearest.entry e) = Nearest.null ∨
      ∃ e' d', (if 40 < d ∧ ec = EntityClass.estaciones then Nearest.null
        else if 25 < d ∧ ec = EntityClass.ciudades then Nearest.null
        else Nearest.entry e) = Nearest.entry e' ∧
        vinc loc (e'.latitud, e'.longitud) = some d' ∧
        d' ≤ plausibilityThreshold ec := by
    intro e d hvd
    rcases thresholds_sound ec e d with hth | ⟨hth, hle⟩
    · exact Or.inl hth
    · exact Or.inr ⟨e, d, hth, hvd, hle⟩
  by_cases hgo : (nr.isNull || force) = true
  · obtain ⟨nd, e, hloc, -⟩ := nearest_location_total vinc loc hv md.entries hne
    obtain ⟨d, hvd⟩ := Option.isSome_iff_exists.mp (hv loc (e.latitud, e.longitud))
    exact ⟨_, update_distance_search vinc ec md loc force nd e d nr hnp hgo hloc hvd,
      hfin e d hvd⟩
  · have hforce : force = false := by
      rcases Bool.or_eq_false_iff.mp (Bool.eq_false_iff.mpr hgo) with ⟨-, h⟩
      exact h
    cases nr with
    | rawCode c => exact absurd rfl (hnp c)
    | null => simp [Nearest.isNull] at hgo
    | entry e0 =>
      obtain ⟨d, hvd⟩ := Option.isSome_iff_exists.mp (hv loc (e0.latitud, e0.longitud))
      subst hforce
      exact ⟨_, update_distance_keep vinc ec (some md) loc e0 d hvd, hfin e0 d hvd⟩

/-- Witness for C1 at a concrete one-entry catalog. -/
theorem update_distance_unpinned_threshold_witness :
    ∃ st', update_distance (fun _ _ => some 10)
        ⟨EntityClass.ciudades, some ⟨0, [⟨"28079", "Madrid", 40, -3, 667⟩]⟩,
          Nearest.null⟩ (0, 0) false = .ok st' ∧
      (st'.nearest = .null ∨
        ∃ e d, st'.nearest = .entry e ∧
          (fun _ _ => (some 10 : Option ℚ) : Loc → Loc → Option ℚ) (0, 0)
            (e.latitud, e.longitud) = some d ∧
          d ≤ plausibilityThreshold
            (MasterState.entityClass ⟨EntityClass.ciudades,
              some ⟨0, [⟨"28079", "Madrid", 40, -3, 667⟩]⟩, Nearest.null⟩)) :=
  update_distance_unpinned_threshold (fun _ _ => some 10)
    ⟨EntityClass.ciudades, some ⟨0, [⟨"28079", "Madrid", 40, -3, 667⟩]⟩,
      Nearest.null⟩ (0, 0) false ⟨0, [⟨"28079", "Madrid", 40, -3, 667⟩]⟩
    (fun _ _ => rfl) (fun _ h => Nearest.noConfusion h) rfl
    (List.cons_ne_nil _ _)

/-- **C2** (amended): a resolution pinned by a caller-supplied code that
exists in the catalog is still subject to the distance-threshold rejection:
after code-existence validation, the recomputed distance check applies and
the pinned entry stays resolved exactly when its distance is within the
catalog threshold. -/
theorem update_distance_pinned_threshold (vinc : Loc → Loc → Option ℚ)
    (st : MasterState) (loc : Loc) (c : String) (md : MasterData) (e : Entry)
    (d : ℚ)
    (hn : st.nearest = .rawCode c) (hd : st.data = some md)
    (hf : md.entries.find? (fun v => v.codigo == c) = some e)
    (hvd : vinc loc (e.latitud, e.longitud) = some d) :
    update_distance vinc st loc false =
      .ok { st with nearest :=
        (if plausibilityThreshold st.entityClass < d then Nearest.null
          else Nearest.entry e) } := by
  obtain ⟨ec, data, nr⟩ := st
  simp only at hn hd ⊢
  subst hn
  subst hd
  rw [update_distance_pinned_eq vinc ec md loc c e d hf hvd]
  cases ec with
  | ciudades => simp [plausibilityThreshold]
  | estaciones => simp [plausibilityThreshold]

/-- Counterexample to C2 as stated: the code `"28079"` exists in the
`ciudades` catalog, yet with a recomputed distance of 30 km (> 25 km) the
pinned entry does **not** remain resolved — `update_distance` clears it. -/
theorem update_distance_pinned_counterexample :
    update_distance (fun _ _ => some 30)
        ⟨EntityClass.ciudades, some ⟨0, [⟨"28079", "Madrid", 40, -3, 667⟩]⟩,
          Nearest.rawCode "28079"⟩ (0, 0) false =
      .ok ⟨EntityClass.ciudades, some ⟨0, [⟨"28079", "Madrid", 40, -3, 667⟩]⟩,
        Nearest.null⟩ ∧
    (25 : ℚ) < 30 ∧
    Nearest.null ≠ Nearest.entry ⟨"28079", "Madrid", 40, -3, 667⟩ := by
  refine ⟨?_, by norm_num, by decide⟩
  rfl

/-- Witness for the amended C2 at a concrete pinned catalog entry. -/
theorem update_distance_pinned_threshold_witness :
    update_distance (fun _ _ => some 10)
        ⟨EntityClass.ciudades, some ⟨0, [⟨"28079", "Madrid", 40, -3, 667⟩]⟩,
          Nearest.rawCode "28079"⟩ (0, 0) false =
      .ok { (⟨EntityClass.ciudades,
              some ⟨0, [⟨"28079", "Madrid", 40, -3, 667⟩]⟩,
              Nearest.rawCode "28079"⟩ : MasterState) with nearest :=
        (if plausibilityThreshold
            (MasterState.entityClass ⟨EntityClass.ciudades,
              some ⟨0, [⟨"28079", "Madrid", 40, -3, 667⟩]⟩,
              Nearest.rawCode "28079"⟩) < (10 : ℚ) then Nearest.null
          else Nearest.entry ⟨"28079", "Madrid", 40, -3, 667⟩) } :=
  update_distance_pinned_threshold (fun _ _ => some 10)
    ⟨EntityClass.ciudades, some ⟨0, [⟨"28079", "Madrid", 40, -3, 667⟩]⟩,
      Nearest.rawCode "28079"⟩ (0, 0) "28079"
    ⟨0, [⟨"28079", "Madrid", 40, -3, 667⟩]⟩
    ⟨"28079", "Madrid", 40, -3, 667⟩ 10 rfl rfl (by decide) rfl

/-- When the query location is `None`, every per-entry distance is `None`,
so the guard `nearest_distance is None` stays true on each iteration: the
loop never raises and records the code of the **last** scanned entry. -/
lemma nearestLoop_none_loc (vinc : Loc → Loc → Option ℚ) :
    ∀ (l : List Entry) (nc : Option String),
      nearestLoop vinc none l none nc =
        .ok (none, l.getLast?.elim nc (fun p => some p.codigo)) := by
  intro l
  induction l with
  | nil => intro nc; rfl
  | cons p rest ih =>
    intro nc
    cases rest with
    | nil => simp [nearestLoop, distance]
    | cons q t =>
      rw [show nearestLoop vinc none (p :: q :: t) none nc =
        nearestLoop vinc none (q :: t) none (some p.codigo) from rfl, ih]
      rw [List.getLast?_cons_cons,
        List.getLast?_eq_getLast_of_ne_nil (List.cons_ne_nil q t)]
      rfl

/-- **C5** (amended): the inner `distance` helper returns `None` (never
raising) when either coordinate pair is `None`; but a `None` distance does
**not** propagate through `nearest_location` as "no match": with a `None`
location the search completes without an exception and resolves an actual
catalog entry (the first entry bearing the last-scanned code) with a `None`
distance. -/
theorem distance_none_propagation (vinc : Loc → Loc → Option ℚ) :
    (∀ p, distance vinc none p = none ∧ distance vinc p none = none) ∧
    (∀ l : List Entry, l ≠ [] →
      ∃ e, e ∈ l ∧ nearest_location vinc l none = .ok (none, some e)) := by
  constructor
  · intro p
    refine ⟨rfl, ?_⟩
    cases p <;> rfl
  · intro l hl
    set p := l.getLast hl with hpdef
    have hp : l.getLast? = some p := List.getLast?_eq_getLast_of_ne_nil hl
    have hloop : nearestLoop vinc none l none none = .ok (none, some p.codigo) := by
      rw [nearestLoop_none_loc vinc l none, hp]
      rfl
    have hfind : (l.find? (fun q => q.codigo == p.codigo)).isSome = true := by
      rw [List.find?_isSome]
      exact ⟨p, List.getLast_mem hl, by simp⟩
    obtain ⟨e, he⟩ := Option.isSome_iff_exists.mp hfind
    exact ⟨e, List.mem_of_find?_eq_some he,
      by simp [nearest_location, hloop, he, bind, Except.bind]⟩

/-- Witness for the amended C5 at a concrete two-entry catalog. -/
theorem distance_none_propagation_witness :
    ∃ e, e ∈ [(⟨"A", "First", 1, 1, 0⟩ : Entry), ⟨"B", "Second", 2, 2, 0⟩] ∧
      nearest_location (fun _ _ => some 7)
          [⟨"A", "First", 1, 1, 0⟩, ⟨"B", "Second", 2, 2, 0⟩] none =
        .ok (none, some e) :=
  (distance_none_propagation (fun _ _ => some 7)).2
    [⟨"A", "First", 1, 1, 0⟩, ⟨"B", "Second", 2, 2, 0⟩] (List.cons_ne_nil _ _)

/-- Counterexample to C5 as stated: with a `None` location and a one-entry
catalog, `nearest_location` resolves the entry rather than reporting "no
match" (`None`). -/
theorem distance_none_counterexample :
    nearest_location (fun _ _ => none) [⟨"X", "N", 0, 0, 0⟩] none =
      .ok (none, some ⟨"X", "N", 0, 0, 0⟩) ∧
    (some (⟨"X", "N", 0, 0, 0⟩ : Entry) ≠ (none : Option Entry)) :=
  ⟨rfl, by decide⟩

/-! ### Catalog persistence and cleaning (`AemetMasterRecord`) -/

/-- `AemetMasterRecord._write_master_data` (`aemet.py:266-274`): returns
whether `save_to_file` is invoked.  With no data nothing happens; otherwise
`elapsed = now - saved` is compared with `timedelta(minutes=5)` (300 s) and
the write occurs when `elapsed < 5 min` **or** `force` is set.  (Cleaned
data always carries a `"saved"` stamp, so `data.get("saved", now)` is the
stored timestamp.) -/
def write_master_data (now : ℤ) (st : MasterState) (force : Bool) : Bool :=
  match st.data with
  | none => false
  | some md => decide (now - md.saved < 300) || force

/-- **C3** (amended): after cleaning, the catalog is persisted exactly when
**less** than 5 minutes have elapsed since the catalog's saved timestamp
(i.e. the data was freshly cleaned), or on a forced write; data loaded from
cache with an older stamp is not re-persisted. -/
theorem write_master_data_iff (now : ℤ) (st : MasterState) (force : Bool) :
    write_master_data now st force = true ↔
      ∃ md, st.data = some md ∧ (now - md.saved < 300 ∨ force = true) := by
  obtain ⟨ec, data, nr⟩ := st
  cases data with
  | none => simp [write_master_data]
  | some md =>
    simp only [write_master_data, Bool.or_eq_true, decide_eq_true_eq]
    constructor
    · intro h
      exact ⟨md, rfl, h⟩
    · rintro ⟨md', hmd, h⟩
      injection hmd with hmd
      subst hmd
      exact h

/-- Counterexample to C3 as stated: ten minutes (600 s) after the previous
persist, with no forced write, the code does **not** persist — although the
claim ("write exactly when more than 5 minutes have elapsed") says it must. -/
theorem write_master_data_counterexample :
    write_master_data 600
        ⟨EntityClass.ciudades, some ⟨0, []⟩, Nearest.null⟩ false = false ∧
      (300 : ℤ) < 600 - 0 := by
  constructor
  · rfl
  · norm_num

/-- Decimal digits to a natural number; `none` on a non-digit or an empty
list. -/
def digitsToNat : List Char → Option ℕ
  | [] => none
  | cs => cs.foldlM
      (fun acc c => if c.isDigit then some (acc * 10 + (c.toNat - 48)) else none) 0

/-- Python `float()` on a string, restricted to plain decimal literals
`[+-]digits[.digits]` and `[+-][digits].digits` (no exponents, whitespace
or specials — none of which occur in the AEMET catalogs).  `none` models
`ValueError`. -/
def pyFloatOfString (s : String) : Option ℚ :=
  let cs := s.toList
  let signAndDigits : ℚ × List Char :=
    match cs with
    | '-' :: rest => (-1, rest)
    | '+' :: rest => (1, rest)
    | rest => (1, rest)
  let sign := signAndDigits.1
  let body := signAndDigits.2
  let intPart := body.takeWhile (·.isDigit)
  let rest := body.dropWhile (·.isDigit)
  match rest with
  | [] =>
    match digitsToNat intPart with
    | some n => some (sign * n)
    | none => none
  | '.' :: frac =>
    if frac.all (·.isDigit) ∧ (intPart ≠ [] ∨ frac ≠ []) then
      let ip : ℚ := ((digitsToNat intPart).getD 0 : ℕ)
      let fp : ℚ := ((digitsToNat frac).getD 0 : ℕ) / (10 : ℚ) ^ frac.length
      some (sign * (ip + fp))
    else none
  | _ => none

/-- Python `float(v)`: numbers pass through, strings are parsed
(`ValueError` on failure), anything else raises `TypeError`. -/
def pyToFloat : PyVal → Except PyErr ℚ
  | .vnum q => .ok q
  | .vstr s =>
    match pyFloatOfString s with
    | some q => .ok q
    | none => .error .valueError
  | _ => .error .typeError

/-- The `MAP_FIELDS` table of `AemetMasterRecord._clean_master_data`
(`aemet.py:421-432`). -/
def MAP_FIELDS_MASTER : String → Option String
  | "idema" => some "codigo"
  | "ubi" => some "nombre"
  | "lat" => some "latitud"
  | "lon" => some "longitud"
  | "alt" => some "altitud"
  | "id" => some "codigo"
  | "nombre" => some "nombre"
  | "latitud_dec" => some "latitud"
  | "longitud_dec" => some "longitud"
  | "altitud" => some "altitud"
  | _ => none

/-- `FLOAT_FIELDS` of `_clean_master_data` (`aemet.py:434`). -/
def FLOAT_FIELDS : List String := ["latitud", "longitud", "altitud"]

/-- The per-entity body of `_clean_master_data`'s loop (`aemet.py:437-450`):
re-key via `MAP_FIELDS` (dropping unknown keys), strip a leading `"id"` from
the code (`KeyError` when no code field was mapped, `AttributeError` when
the code is not a string), then coerce the coordinate fields to float. -/
def cleanEntity (entity : PyDict) : Except PyErr PyDict := do
  let ce := entity.foldl
    (fun acc kv =>
      match MAP_FIELDS_MASTER kv.1 with
      | some mk => alSet acc mk kv.2
      | none => acc) []
  let cod ← match alGet ce "codigo" with
    | none => Except.error PyErr.keyError
    | some (.vstr s) => Except.ok (if s.startsWith "id" then s.drop 2 else s)
    | some _ => Except.error PyErr.attributeError
  let ce := alSet ce "codigo" (.vstr cod)
  ce.mapM (fun kv =>
    if FLOAT_FIELDS.contains kv.1 then do
      let q ← pyToFloat kv.2
      pure (kv.1, PyVal.vnum q)
    else pure kv)

/-- The possible shapes of the argument of `_clean_master_data`: the raw
list fetched from AEMET, or a dict (with or without a `"saved"` stamp; the
catalog key itself is recorded as the `klass` field). -/
inductive JData where
  | jlist : List PyDict → JData
  | jdict : Option ℤ → EntityClass → List PyDict → JData
deriving Repr

/-- `AemetMasterRecord._clean_master_data` (`aemet.py:413-456`): a dict
already carrying a `"saved"` stamp is returned unchanged ("we only save
curated, so there is no need to clean data again"); a dict without the
stamp is iterated over its *keys*, so `entity.items()` raises
`AttributeError` on the string key; a raw list is cleaned entry by entry
and stamped with the current time. -/
def clean_master_data (entityClass : EntityClass) (now : ℤ) (data : JData) :
    Except PyErr JData :=
  match data with
  | .jdict (some s) k es => .ok (.jdict (some s) k es)
  | .jdict none _ _ => .error .attributeError
  | .jlist raws => do
    let ces ← raws.mapM cleanEntity
    .ok (.jdict (some now) entityClass ces)

/-- **C6**: cleaning is idempotent — re-cleaning the result of a clean
returns it unchanged, because cleaned data always carries a save timestamp
and stamped input is returned as-is.  Stated over the `Except` monad, so it
also covers inputs on which cleaning raises (the error propagates
identically on both sides). -/
theorem clean_master_data_idempotent (ec ec' : EntityClass) (now now' : ℤ)
    (x : JData) :
    (clean_master_data ec now x >>= clean_master_data ec' now') =
      clean_master_data ec now x := by
  cases x with
  | jdict saved k es =>
    cases saved with
    | some s => rfl
    | none => rfl
  | jlist raws =>
    cases h : raws.mapM cleanEntity with
    | error e => simp only [clean_master_data, h, bind, Except.bind]
    | ok ces => simp only [clean_master_data, h, bind, Except.bind]

/-! ### Observation normalization (`AemetWeather`) -/

/-- The fixed attribution string (`aemet.py:46`). -/
def ATTRIBUTION : String := "Data provided by AEMET. www.aemet.es"

/-- The `_MAP_FIELDS` table shared verbatim by `AemetForecast`
(`aemet.py:499-537`) and `AemetWeather` (`aemet.py:736-774`); the right-hand
sides are the HomeAssistant attribute constants' values (`ATTR_FORECAST_TIME
= "datetime"`, `ATTR_FORECAST_TEMP_LOW = "templow"`, etc.). -/
def MAP_FIELDS_WEATHER : String → Option String
  | "descripcion" => some "description"
  | "dv" => some "wind_bearing"
  | "viento_Direccion" => some "wind_bearing"
  | "vientoAndRachaMax_Direccion" => some "wind_bearing"
  | "alt" => some "altitude"
  | "idema" => some "weather_station"
  | "fint" => some "datetime"
  | "humedadRelativa_Maxima" => some "humidity"
  | "humedadRelativa_Minima" => some "humidity min"
  | "hr" => some "humidity"
  | "humedadRelativa" => some "humidity"
  | "estadoCielo" => some "condition"
  | "uvMax" => some "UV index"
  | "lat" => some "latitude"
  | "lon" => some "longitude"
  | "nieve" => some "snow"
  | "ubi" => some "location"
  | "ocaso" => some "sunset"
  | "orto" => some "sunrise"
  | "prec" => some "precipitation"
  | "precipitacion" => some "precipitation"
  | "pres" => some "pressure"
  | "probPrecipitacion" => some "precipitation_probability"
  | "tpr" => some "dew_point"
  | "sensTermica_Maxima" => some "sensacion termica maxima"
  | "sensTermica_Minima" => some "sensacion termica minima"
  | "sensTermica" => some "sensacion termica"
  | "temperatura_Maxima" => some "temperature"
  | "temperatura_Minima" => some "templow"
  | "ta" => some "temperature"
  | "temperatura" => some "temperature"
  | "value" => some "valor"
  | "vv" => some "wind_speed"
  | "viento_Velocidad" => some "wind_speed"
  | "vientoAndRachaMax_Velocidad" => some "wind_speed"
  | "vis" => some "visibility"
  | "periodo" => some "periodo"
  | _ => none

/-- `AemetWeather._remap_keys` (`aemet.py:794-801`): rename recognized keys,
drop the rest; when two raw keys map to the same canonical name the later
value overwrites the earlier in place. -/
def remap_keys (d : PyDict) : PyDict :=
  d.foldl
    (fun acc kv =>
      match MAP_FIELDS_WEATHER kv.1 with
      | some mk => alSet acc mk kv.2
      | none => acc) []

/-- Sort-key extraction `itemgetter("fint")` (`aemet.py:806`): `KeyError`
when a reading lacks the timestamp field; AEMET `fint` values are ISO-8601
strings, compared by Python's code-point-lexicographic string `<`, which is
the `List Char` lexicographic order on `String.toList` used below. -/
def getFint (r : PyDict) : Except PyErr String :=
  match alGet r "fint" with
  | some (.vstr s) => .ok s
  | some _ => .error .typeError
  | none => .error .keyError

/-- CPython `sorted` first computes the key of every element, in list
order. -/
def fintKeyed : List PyDict → Except PyErr (List (String × PyDict))
  | [] => .ok []
  | r :: rest => do
    let s ← getFint r
    let ks ← fintKeyed rest
    .ok ((s, r) :: ks)

/-- Python's string `<=` (code-point lexicographic) on the decorated sort
pairs. -/
def fintLe (a b : String × PyDict) : Prop := a.1.toList ≤ b.1.toList

instance : DecidableRel fintLe := fun a b =>
  inferInstanceAs (Decidable (a.1.toList ≤ b.1.toList))

instance : IsTotal (String × PyDict) fintLe := ⟨fun a b => le_total a.1.toList b.1.toList⟩

instance : IsTrans (String × PyDict) fintLe := ⟨fun _ _ _ h1 h2 => le_trans h1 h2⟩

instance : IsRefl (String × PyDict) fintLe := ⟨fun a => le_refl a.1.toList⟩

/-- `sorted(raw_data, key=itemgetter("fint"))` (`aemet.py:806`): a stable
sort ascending by timestamp, modelled by insertion sort on the decorated
list. -/
def sortByFint (raw : List PyDict) : Except PyErr (List PyDict) := do
  let keyed ← fintKeyed raw
  .ok ((List.insertionSort fintLe keyed).map Prod.snd)

/-- The `delete` tuple of `_clean_currently_data` (`aemet.py:809`). -/
def DELETE_KEYS : List String :=
  ["location", "weather_station", "latitude", "longitude", "altitude"]

/-- The `{information, data}` pair returned by `_clean_currently_data`. -/
structure ObsResult where
  information : PyDict
  data : PyDict
deriving Repr

/-- `station_info` construction (`aemet.py:812-813`): one entry per
`delete` key (`KeyError` when the remapped reading lacks one), then the
attribution is appended. -/
def station_info (remapped : PyDict) : Except PyErr PyDict := do
  let info ← DELETE_KEYS.mapM (fun k =>
    match alGet remapped k with
    | some v => Except.ok (k, v)
    | none => Except.error PyErr.keyError)
  .ok (info ++ [("attribution", PyVal.vstr ATTRIBUTION)])

/-- Lines `aemet.py:807-817` applied to the selected reading: remap keys,
split out the station metadata, keep the rest as weather data. -/
def normalizeReading (r : PyDict) : Except PyErr ObsResult := do
  let remapped := remap_keys r
  let info ← station_info remapped
  .ok ⟨info, remapped.filter (fun kv => !DELETE_KEYS.contains kv.1)⟩

/-- `AemetWeather._clean_currently_data` (`aemet.py:803-817`): sort readings
by `fint` ascending, pick the last (`sorted_data[-1]` raises `IndexError`
on an empty list), then remap and split it. -/
def clean_currently_data (raw : List PyDict) : Except PyErr ObsResult := do
  let sorted_data ← sortByFint raw
  match sorted_data.getLast? with
  | none => .error .indexError
  | some last => normalizeReading last

/-- `AemetWeather._update_currently` (`aemet.py:830-844`): `ValueError` when
no station is resolved; a `None` payload yields a `None` observation
(logged); otherwise the payload is cleaned.  The fetched payload stands in
for `_load_current_data`'s network call. -/
def update_currently (nearest : Option PyDict) (raw : Option (List PyDict)) :
    Except PyErr (Option ObsResult) :=
  match nearest with
  | none => .error .valueError
  | some _ =>
    match raw with
    | none => .ok none
    | some readings => do
      let r ← clean_currently_data readings
      .ok (some r)

/-- **C4**: the code contradicts the claim — an *empty* list of readings
makes `_clean_currently_data` raise `IndexError` at `sorted_data[-1]`
(`aemet.py:807`); only a `None` payload yields the claimed null observation
without raising. -/
theorem clean_currently_empty_raises :
    clean_currently_data [] = .error .indexError ∧
    update_currently (some [("codigo", PyVal.vstr "3195")]) (some []) =
      .error .indexError ∧
    update_currently (some [("codigo", PyVal.vstr "3195")]) none = .ok none :=
  ⟨rfl, rfl, rfl⟩

/-- Every decorated pair produced by `fintKeyed` pairs a reading of the
input with its extracted timestamp. -/
lemma fintKeyed_ok_mem (raw : List PyDict) (ks : List (String × PyDict))
    (h : fintKeyed raw = .ok ks) :
    ∀ p ∈ ks, p.2 ∈ raw ∧ getFint p.2 = .ok p.1 := by
  induction raw generalizing ks with
  | nil =>
    cases h
    simp
  | cons r rest ih =>
    cases hs : getFint r with
    | error e =>
      simp only [fintKeyed, hs, bind, Except.bind] at h
      exact Except.noConfusion h
    | ok s =>
      cases hrest : fintKeyed rest with
      | error e =>
        simp only [fintKeyed, hs, hrest, bind, Except.bind] at h
        exact Except.noConfusion h
      | ok ks' =>
        simp only [fintKeyed, hs, hrest, bind, Except.bind, Except.ok.injEq] at h
        subst h
        intro p hp
        rcases List.mem_cons.mp hp with rfl | hp'
        · exact ⟨List.mem_cons_self _ _, hs⟩
        · obtain ⟨h1, h2⟩ := ih ks' hrest p hp'
          exact ⟨List.mem_cons_of_mem _ h1, h2⟩

/-- Conversely, every reading with an extractable timestamp appears
decorated in the `fintKeyed` output. -/
lemma fintKeyed_covers (raw : List PyDict) (ks : List (String × PyDict))
    (h : fintKeyed raw = .ok ks) :
    ∀ r ∈ raw, ∃ s, getFint r = .ok s ∧ (s, r) ∈ ks := by
  induction raw generalizing ks with
  | nil =>
    intro r hr
    cases hr
  | cons r0 rest ih =>
    cases hs : getFint r0 with
    | error e =>
      simp only [fintKeyed, hs, bind, Except.bind] at h
      exact Except.noConfusion h
    | ok s =>
      cases hrest : fintKeyed rest with
      | error e =>
        simp only [fintKeyed, hs, hrest, bind, Except.bind] at h
        exact Except.noConfusion h
      | ok ks' =>
        simp only [fintKeyed, hs, hrest, bind, Except.bind, Except.ok.injEq] at h
        subst h
        intro r hr
        rcases List.mem_cons.mp hr with rfl | hr'
        · exact ⟨s, hs, List.mem_cons_self _ _⟩
        · obtain ⟨s', h1, h2⟩ := ih ks' hrest r hr'
          exact ⟨s', h1, List.mem_cons_of_mem _ h2⟩

/-- In a list sorted by a reflexive relation, every element is related to
the last one. -/
lemma sorted_rel_getLast {α : Type*} {r : α → α → Prop} [IsRefl α r] :
    ∀ (l : List α), List.Sorted r l → ∀ x, l.getLast? = some x →
      ∀ y ∈ l, r y x := by
  intro l
  induction l with
  | nil =>
    intro _ x hx
    cases hx
  | cons a t ih =>
    intro hs x hx y hy
    cases t with
    | nil =>
      cases hx
      rcases List.mem_singleton.mp hy with rfl
      exact refl_of r y
    | cons b t' =>
      rw [List.getLast?_cons_cons] at hx
      rcases List.mem_cons.mp hy with rfl | hy'
      · have hne : (b :: t') ≠ [] := List.cons_ne_nil _ _
        have hxmem : x ∈ b :: t' := by
          rw [List.getLast?_eq_getLast_of_ne_nil hne] at hx
          injection hx with hx
          subst hx
          exact List.getLast_mem hne
        exact (List.sorted_cons.mp hs).1 x hxmem
      · exact ih (List.sorted_cons.mp hs).2 x hx y hy'

/-- **C7**: whenever `_clean_currently_data` succeeds on a list of readings,
the normalized reading is one of the input readings, its timestamp is the
maximum of all readings' timestamps (Python's lexicographic string order),
so in particular with two readings `T1 < T2` the `T2` reading is selected. -/
theorem clean_currently_picks_latest (raw : List PyDict) (res : ObsResult)
    (h : clean_currently_data raw = .ok res) :
    ∃ r s, r ∈ raw ∧ getFint r = .ok s ∧ normalizeReading r = .ok res ∧
      ∀ r' ∈ raw, ∀ s', getFint r' = .ok s' → s'.toList ≤ s.toList := by
  cases hk : fintKeyed raw with
  | error e =>
    simp only [clean_currently_data, sortByFint, hk, bind, Except.bind] at h
    exact Except.noConfusion h
  | ok keyed =>
    simp only [clean_currently_data, sortByFint, hk, bind, Except.bind] at h
    cases hS : ((List.insertionSort fintLe keyed).map Prod.snd).getLast? with
    | none =>
      rw [hS] at h
      cases h
    | some last =>
      rw [hS] at h
      rw [show ((List.insertionSort fintLe keyed).map Prod.snd).getLast? =
        ((List.insertionSort fintLe keyed).getLast?).map Prod.snd from
        List.getLast?_map _ _] at hS
      cases hSl : (List.insertionSort fintLe keyed).getLast? with
      | none =>
        rw [hSl] at hS
        cases hS
      | some lp =>
        rw [hSl] at hS
        injection hS with hS
        have hlpmem : lp ∈ List.insertionSort fintLe keyed := by
          obtain ⟨hne, heq⟩ := List.mem_getLast?_eq_getLast (Option.mem_def.mpr hSl)
          rw [heq]
          exact List.getLast_mem hne
        obtain ⟨hraw, hfint⟩ := fintKeyed_ok_mem raw keyed hk lp
          ((List.mem_insertionSort fintLe).mp hlpmem)
        refine ⟨lp.2, lp.1, hraw, hfint, by rw [hS]; exact h, ?_⟩
        intro r' hr' s' hs'
        obtain ⟨s'', hfint', hmem'⟩ := fintKeyed_covers raw keyed hk r' hr'
        have hseq : s'' = s' := by
          rw [hs'] at hfint'
          injection hfint' with hx
          exact hx.symm
        subst hseq
        have hmemS : (s'', r') ∈ List.insertionSort fintLe keyed :=
          (List.mem_insertionSort fintLe).mpr hmem'
        exact sorted_rel_getLast _ (List.sorted_insertionSort fintLe keyed)
          lp hSl (s'', r') hmemS

/-- A concrete station reading timestamped `T1`. -/
def obsReadingT1 : PyDict :=
  [("fint", .vstr "2020-01-01T00:00:00"), ("idema", .vstr "3195"),
   ("ubi", .vstr "MADRID"), ("lat", .vnum 40), ("lon", .vnum (-3)),
   ("alt", .vnum 667), ("ta", .vnum 10)]

/-- A concrete station reading timestamped `T2 > T1`. -/
def obsReadingT2 : PyDict :=
  [("fint", .vstr "2020-01-01T01:00:00"), ("idema", .vstr "3195"),
   ("ubi", .vstr "MADRID"), ("lat", .vnum 40), ("lon", .vnum (-3)),
   ("alt", .vnum 667), ("ta", .vnum 12)]

/-- Witness for C7 on two concrete readings with `T1 < T2`. -/
theorem clean_currently_picks_latest_witness :
    ∃ res : ObsResult,
      clean_currently_data [obsReadingT1, obsReadingT2] = .ok res ∧
      ∃ r s, r ∈ [obsReadingT1, obsReadingT2] ∧ getFint r = .ok s ∧
        normalizeReading r = .ok res ∧
        ∀ r' ∈ [obsReadingT1, obsReadingT2], ∀ s',
          getFint r' = .ok s' → s'.toList ≤ s.toList :=
  ⟨_, rfl, clean_currently_picks_latest _ _ rfl⟩

/-! ### Forecast normalization (`AemetForecast`) -/

/-- Python `str.capitalize()`: first character upper-cased, the rest
lower-cased. -/
def pyCapitalize (s : String) : String :=
  match s.toList with
  | [] => ""
  | c :: cs => ⟨c.toUpper :: cs.map Char.toLower⟩

/-- Python `float(v)` when used inside `try/except` (`aemet.py:668-676`):
`none` stands for any raised exception. -/
def pyFloatOpt : PyVal → Option ℚ
  | .vnum q => some q
  | .vstr s => pyFloatOfString s
  | _ => none

/-- `_FLOAT_SENSORS` (`aemet.py:538-545`), in tuple order. -/
def FLOAT_SENSORS : List String :=
  ["humidity", "snow", "precipitation", "sensacion termica", "temperature",
   "wind_speed"]

/-- `resultado != ""` is false exactly on the empty string. -/
def isEmptyString : PyVal → Bool
  | .vstr s => s = ""
  | _ => false

/-- The transformed-data dict: interval string → record. -/
abbrev TD := List (String × PyDict)

def tdGet : TD → String → Option PyDict
  | [], _ => none
  | (k, v) :: rest, key => if k = key then some v else tdGet rest key

def tdSet : TD → String → PyDict → TD
  | [], key, v => [(key, v)]
  | (k, w) :: rest, key, v =>
    if k = key then (key, v) :: rest else (k, w) :: tdSet rest key v

/-- `_periodo` (`aemet.py:565-579`): build the interval key for a sensor
record.  `"periodo" not in variable` is key membership (a stored `None`
still counts as present); slicing a non-string periodo raises. -/
def periodo (vr : PyDict) (fecha : String) : Except PyErr String :=
  match alGet vr "periodo" with
  | none => .ok (fecha ++ "T00:00:00")
  | some (.vstr p) =>
    let ini := p.take 2
    let fin := p.takeRight 2
    if ini = fin then .ok (fecha ++ "T" ++ ini ++ ":00:00")
    else if ini = "00" ∧ fin = "24" then .ok (fecha ++ "T00:00:00")
    else .ok (fecha ++ "T" ++ ini ++ ":00:00 & " ++ fin)
  | some _ => .error .typeError

/-- The fields loop of `inner_transform` (`aemet.py:585-600`): an unmapped
computed name `return`s (abandoning the remaining fields); a missing or
`None` value is skipped; a list value contributes its first element
(`IndexError` on an empty list); empty strings are treated as absent. -/
def innerFields (interval : String) (item : PyDict) (sensor : String)
    (append replaceName : Bool) :
    TD → List String → Except PyErr TD
  | td, [] => .ok td
  | td, field :: fs =>
    let name0 := if replaceName then field else sensor
    let name1 := if append then name0 ++ "_" ++ pyCapitalize field else name0
    match MAP_FIELDS_WEATHER name1 with
    | none => .ok td
    | some name =>
      let put : PyVal → Except PyErr TD := fun v =>
        match tdGet td interval with
        | none => .error .keyError
        | some rec0 =>
          .ok (tdSet td interval (alSet rec0 name v))
      match alGet item field with
      | none => innerFields interval item sensor append replaceName td fs
      | some .vnone => innerFields interval item sensor append replaceName td fs
      | some (.vlist []) => .error .indexError
      | some (.vlist (x :: _)) =>
        if isEmptyString x then
          innerFields interval item sensor append replaceName td fs
        else do
          let td ← put x
          innerFields interval item sensor append replaceName td fs
      | some v =>
        if isEmptyString v then
          innerFields interval item sensor append replaceName td fs
        else do
          let td ← put v
          innerFields interval item sensor append replaceName td fs

/-- `inner_transform` (`aemet.py:581-600`): compute the interval key, make
sure the interval record exists (`aemet.py:583-584` inserts `{}` even when
no field ends up stored), then run the fields loop. -/
def inner_transform (td : TD) (fecha : String) (item : PyDict)
    (sensor : String) (fields : List String) (append replaceName : Bool) :
    Except PyErr TD := do
  let interval ← periodo item fecha
  let td := match tdGet td interval with
    | some _ => td
    | none => td ++ [(interval, [])]
  innerFields interval item sensor append replaceName td fields

/-- `transform` (`aemet.py:602-612`): run `inner_transform` on each record
of a sensor group, which is either a list of per-period dicts or a single
dict.  (`None`/absent groups are skipped; the AEMET sensor groups are
always dicts or lists of dicts, other shapes are modelled as raising.) -/
def transform (td : TD) (fecha : String) (day : PyDict) (sensors : List String)
    (fields : List String) (append replaceName : Bool) : Except PyErr TD :=
  sensors.foldlM
    (fun td sensor =>
      match alGet day sensor with
      | none => .ok td
      | some .vnone => .ok td
      | some (.vlist items) =>
        items.foldlM
          (fun td it =>
            match it with
            | .vdict d => inner_transform td fecha d sensor fields append replaceName
            | _ => .error .typeError) td
      | some (.vdict d) => inner_transform td fecha d sensor fields append replaceName
      | some _ => .error .typeError) td

/-- One row of the per-mode `schema_definition` tables
(`aemet.py:630-653`). -/
structure SchemaRule where
  sensors : List String
  fields : List String
  append : Bool
  replaceName : Bool
deriving Repr

/-- The `"diaria"` schema table (`aemet.py:631-640`). -/
def dailySchema : List SchemaRule :=
  [⟨["estadoCielo"], ["value"], false, false⟩,
   ⟨["estadoCielo"], ["descripcion"], false, true⟩,
   ⟨["temperatura"], ["maxima"], false, false⟩,
   ⟨["temperatura"], ["minima"], true, false⟩,
   ⟨["humedadRelativa"], ["maxima"], false, false⟩,
   ⟨["humedadRelativa"], ["minima"], true, false⟩,
   ⟨["viento"], ["direccion"], true, false⟩,
   ⟨["viento"], ["velocidad"], true, false⟩]

/-- The `"horaria"` schema table (`aemet.py:642-653`). -/
def hourlySchema : List SchemaRule :=
  [⟨["estadoCielo"], ["value"], false, false⟩,
   ⟨["estadoCielo"], ["descripcion"], false, true⟩,
   ⟨["temperatura"], ["value"], false, false⟩,
   ⟨["precipitacion"], ["value"], false, false⟩,
   ⟨["nieve"], ["value"], false, false⟩,
   ⟨["sensTermica"], ["value"], false, false⟩,
   ⟨["humedadRelativa"], ["value"], false, false⟩,
   ⟨["vientoAndRachaMax"], ["direccion"], true, false⟩,
   ⟨["vientoAndRachaMax"], ["velocidad"], true, false⟩]

/-- `"{}".format(fecha)` for the day's raw date: strings render as
themselves, a missing key or a stored `None` renders as `"None"`.  (Other
JSON types never occur as AEMET dates; they are rendered as fixed tokens
rather than Python's repr.) -/
def fmtFecha : Option PyVal → String
  | some (.vstr s) => s
  | some (.vnum _) => "<num>"
  | some (.vlist _) => "<list>"
  | some (.vdict _) => "<dict>"
  | some .vnone => "None"
  | none => "None"

/-- The main day loop of `_refactor_forecast` (`aemet.py:654-657`):
`fecha = forecast.get("fecha")`, then every schema row is transformed. -/
def buildTD (schema : List SchemaRule) (dias : List PyDict) : Except PyErr TD :=
  dias.foldlM
    (fun td day =>
      schema.foldlM
        (fun td rule =>
          transform td (fmtFecha (alGet day "fecha")) day rule.sensors
            rule.fields rule.append rule.replaceName) td) []

/-- The float-coercion pass over one record (`aemet.py:668-676`): each
float sensor's value is converted with `float`, failures are silently
skipped. -/
def coerceFloats (r : PyDict) : PyDict :=
  FLOAT_SENSORS.foldl
    (fun acc sensor =>
      match alGet acc sensor with
      | none => acc
      | some .vnone => acc
      | some v =>
        match pyFloatOpt v with
        | some q => alSet acc sensor (.vnum q)
        | none => acc) r

/-- The interval-move pass (`aemet.py:658-663`): every record stored under
a key longer than 19 characters (an interval key `YYYY-MM-DDTHH:00:00 & FF`)
is copied into the day's midnight record under an `HH-FF` key;
`transformed_data[fecha]` raises `KeyError` when that midnight record does
not exist.  The source iterates the dict while mutating inner records, but
it mutates only full-timestamp (19-character) records and reads only
interval records, so folding over the original entry list with the current
dict as accumulator reproduces it exactly. -/
def moveIntervals (td : TD) : Except PyErr TD :=
  td.foldlM
    (fun acc kv =>
      if kv.1.length > 19 then
        let fecha := kv.1.take 10 ++ "T00:00:00"
        let horas := (kv.1.drop 11).take 2 ++ "-" ++ kv.1.takeRight 2
        match tdGet acc fecha with
        | none => .error .keyError
        | some day => .ok (tdSet acc fecha (alSet day horas (.vdict kv.2)))
      else .ok acc) td

/-- The transformed dict after the three post passes of
`_refactor_forecast` (`aemet.py:658-676`).  The float coercion is applied
*before* the interval move here: in the source the passes run
move → stamp → coerce, but the moved interval records are stored by
reference and are therefore coerced through their top-level alias; with
value semantics coercing every top-level record first gives the nested
copies the same coerced values.  The coercion touches only the six fixed
float-sensor keys, which are disjoint from the inserted `datetime` key and
from the `HH-FF` interval keys, so the passes commute otherwise. -/
def buildPost (schema : List SchemaRule) (dias : List PyDict) :
    Except PyErr TD := do
  let td ← buildTD schema dias
  let td := td.map (fun kv => (kv.1, coerceFloats kv.2))
  let td ← moveIntervals td
  .ok (td.map (fun kv =>
    if kv.1.length = 19 then (kv.1, alSet kv.2 "datetime" (.vstr kv.1)) else kv))

/-- The two forecast modes accepted by `AemetForecast.__init__`
(`_FORECAST_MODE`, `aemet.py:498`). -/
inductive FMode where
  | diaria
  | horaria
deriving DecidableEq, Repr

/-- Schema table selection (`aemet.py:629-653`). -/
def schemaFor : FMode → List SchemaRule
  | .diaria => dailySchema
  | .horaria => hourlySchema

/-- The fields of `raw_data[0]` that `_refactor_forecast` reads.  The
`version` field holds `str(raw_data[0]["version"])` (AEMET sends the float
`1.0`, whose `str()` is `"1.0"`). -/
structure PayloadItem where
  version : String
  origen : PyVal
  nombre : String
  provincia : String
  elaborado : String
  dias : List PyDict
deriving Repr

/-- The `header` dict (`aemet.py:619-626`), with the source's literal keys
(including the `"copyrigth"` typo). -/
def headerOf (item : PayloadItem) : PyDict :=
  [("city", .vstr item.nombre),
   ("province", .vstr item.provincia),
   ("processing date", .vstr item.elaborado),
   ("attribution", .vstr ATTRIBUTION),
   ("API version", .vstr item.version),
   ("copyrigth", item.origen)]

/-- The `{information, data}` result of `_refactor_forecast`. -/
structure ForecastResult where
  information : PyDict
  data : List PyDict
deriving Repr

/-- Sort key `itemgetter(ATTR_FORECAST_TIME)` of the final
`sorted(...)` (`aemet.py:679`): every kept record just received its
`datetime` string, compared with Python's lexicographic string `<`. -/
def dtKey (r : PyDict) : String :=
  match alGet r "datetime" with
  | some (.vstr s) => s
  | _ => ""

def dtLe (a b : PyDict) : Prop := (dtKey a).toList ≤ (dtKey b).toList

instance : DecidableRel dtLe := fun a b =>
  inferInstanceAs (Decidable ((dtKey a).toList ≤ (dtKey b).toList))

instance : IsTotal PyDict dtLe := ⟨fun a b => le_total (dtKey a).toList (dtKey b).toList⟩

instance : IsTrans PyDict dtLe := ⟨fun _ _ _ h1 h2 => le_trans h1 h2⟩

/-- `AemetForecast._refactor_forecast` (`aemet.py:562-682`): reject any
schema version other than `"1.0"` with a `None` result; otherwise build
the transformed dict, keep exactly the records under 19-character
(full-timestamp) keys, sort them ascending by their `datetime`, and wrap
them with the header. -/
def refactor_forecast (mode : FMode) (raw : List PayloadItem) :
    Except PyErr (Option ForecastResult) :=
  match raw with
  | [] => .error .indexError
  | item :: _ =>
    if item.version ≠ "1.0" then .ok none
    else do
      let td ← buildPost (schemaFor mode) item.dias
      let flat := (td.filter (fun kv => kv.1.length = 19)).map Prod.snd
      .ok (some ⟨headerOf item, List.insertionSort dtLe flat⟩)

/-- **C8**: a payload whose declared schema version is not `"1.0"` is
rejected with a `None` result (logged), without raising. -/
theorem refactor_forecast_unsupported_version (mode : FMode)
    (item : PayloadItem) (rest : List PayloadItem)
    (h : item.version ≠ "1.0") :
    refactor_forecast mode (item :: rest) = .ok none := by
  simp [refactor_forecast, h]

/-- Witness for C8: a daily payload declaring version `"2.0"`. -/
theorem refactor_forecast_unsupported_version_witness :
    refactor_forecast FMode.diaria
      [⟨"2.0", .vstr "AEMET", "Madrid", "Madrid", "2021-01-01", []⟩] = .ok none :=
  refactor_forecast_unsupported_version FMode.diaria
    ⟨"2.0", .vstr "AEMET", "Madrid", "Madrid", "2021-01-01", []⟩ []
    (by decide)

/-- **C9**: whenever `_refactor_forecast` succeeds, the output data list
consists of exactly the transformed records stored under full-timestamp
(19-character, date+time) keys — interval-keyed records are excluded — and
it is sorted ascending by the `datetime` field. -/
theorem refactor_forecast_data_sorted (mode : FMode) (raw : List PayloadItem)
    (final : ForecastResult)
    (h : refactor_forecast mode raw = .ok (some final)) :
    ∃ item td, raw.head? = some item ∧
      buildPost (schemaFor mode) item.dias = .ok td ∧
      final.data.Perm ((td.filter (fun kv => kv.1.length = 19)).map Prod.snd) ∧
      List.Sorted dtLe final.data ∧
      final.information = headerOf item := by
  cases raw with
  | nil => exact Except.noConfusion h
  | cons item rest =>
    by_cases hv : item.version ≠ "1.0"
    · rw [refactor_forecast_unsupported_version mode item rest hv] at h
      injection h with h
      exact Option.noConfusion h
    · cases htd : buildPost (schemaFor mode) item.dias with
      | error e =>
        simp only [refactor_forecast, if_neg hv, htd, bind, Except.bind] at h
        exact Except.noConfusion h
      | ok td =>
        simp only [refactor_forecast, if_neg hv, htd, bind, Except.bind,
          Except.ok.injEq, Option.some.injEq] at h
        refine ⟨item, td, rfl, htd, ?_, ?_, ?_⟩
        · rw [← h]
          exact List.perm_insertionSort dtLe _
        · rw [← h]
          exact List.sorted_insertionSort dtLe _
        · rw [← h]

/-- A concrete daily-forecast day record: a midnight state-of-sky period
(`00-24`), a sub-period (`06-12`), and a temperature group. -/
def fcWitnessDay : PyDict :=
  [("fecha", .vstr "2021-01-01"),
   ("estadoCielo", .vlist
     [.vdict [("value", .vstr "11"), ("periodo", .vstr "00-24")],
      .vdict [("value", .vstr "12"), ("periodo", .vstr "06-12")]]),
   ("temperatura", .vdict [("maxima", .vnum 15), ("minima", .vnum 5)])]

/-- A concrete version-`"1.0"` daily payload. -/
def fcWitnessItem : PayloadItem :=
  ⟨"1.0", .vstr "AEMET", "Madrid", "Madrid", "2021-01-01T00:00:00",
    [fcWitnessDay]⟩

/-- Witness for C9 on the concrete daily payload. -/
theorem refactor_forecast_data_sorted_witness :
    ∃ final : ForecastResult,
      refactor_forecast FMode.diaria [fcWitnessItem] = .ok (some final) ∧
      ∃ item td, [fcWitnessItem].head? = some item ∧
        buildPost (schemaFor FMode.diaria) item.dias = .ok td ∧
        final.data.Perm ((td.filter (fun kv => kv.1.length = 19)).map Prod.snd) ∧
        List.Sorted dtLe final.data ∧
        final.information = headerOf item :=
  ⟨_, rfl, refactor_forecast_data_sorted _ _ _ rfl⟩

/-! ### Presentation layer (`weather.py`) -/

/-- `MAP_CONDITION` (`weather.py:42-85`). -/
def MAP_CONDITION : String → Option String
  | "11" => some "sunny"
  | "11n" => some "clear-night"
  | "12" => some "partlycloudy"
  | "12n" => some "partlycloudy"
  | "13" => some "partlycloudy"
  | "13n" => some "partlycloudy"
  | "14" => some "cloudy"
  | "14n" => some "cloudy"
  | "15" => some "cloudy"
  | "16" => some "cloudy"
  | "17" => some "Nubes altas"
  | "17n" => some "Nubes altas noche"
  | "23" => some "rainy"
  | "23n" => some "rainy"
  | "24" => some "rainy"
  | "24n" => some "rainy"
  | "25" => some "rainy"
  | "26" => some "rainy"
  | "33" => some "snowy"
  | "33n" => some "snowy"
  | "34" => some "snowy"
  | "34n" => some "snowy"
  | "35" => some "snowy"
  | "36" => some "snowy"
  | "36n" => some "snowy"
  | "43" => some "partlycloudy"
  | "43n" => some "partlycloudy"
  | "44" => some "cloudy"
  | "45" => some "cloudy"
  | "46" => some "cloudy"
  | "51" => some "lightning"
  | "52" => some "lightning"
  | "53" => some "lightning"
  | "54" => some "lightning"
  | "61" => some "lightning-rainy"
  | "62" => some "lightning-rainy"
  | "63" => some "lightning-rainy"
  | "64" => some "lightning-rainy"
  | "71" => some "partlycloudy"
  | "72" => some "snowy"
  | "73" => some "snowy"
  | "74" => some "snowy"
  | _ => none

/-- `MAP_CONDITION.get(value)`: a non-string or unmapped condition code
yields `None`. -/
def mapCondition : PyVal → PyVal
  | .vstr s =>
    match MAP_CONDITION s with
    | some c => .vstr c
    | none => .vnone
  | _ => .vnone

/-- The per-entry body of the daily branch of `AemetWeather.forecast`
(`weather.py:339-367`): the emitted dict populates `wind_bearing` from the
source record's **wind-speed** value (`weather.py:347`); when the day-level
condition does not map, the condition, wind speed and wind bearing are
re-read from the current six-hour sub-period record
(`entry.get("{}-{}".format(inicio, fin))`), and `.get` on a missing
sub-period (`None`) raises `AttributeError`. -/
def forecastDailyEntry (entry : PyDict) (hour : ℕ) : Except PyErr PyDict :=
  let data0 : PyDict :=
    [("datetime", pyGet entry "datetime"),
     ("temperature", pyGet entry "temperature"),
     ("templow", pyGet entry "templow"),
     ("precipitation", pyGet entry "precipitation"),
     ("wind_speed", pyGet entry "wind_speed"),
     ("wind_bearing", pyGet entry "wind_speed"),
     ("condition", mapCondition (pyGet entry "condition"))]
  match mapCondition (pyGet entry "condition") with
  | .vnone =>
    let inicio := hour / 6 * 6
    let fin := (hour / 6 + 1) * 6
    match pyGet entry (toString inicio ++ "-" ++ toString fin) with
    | .vdict sub =>
      .ok (alSet (alSet (alSet data0 "condition"
            (mapCondition (pyGet sub "condition")))
          "wind_speed" (pyGet sub "wind_speed"))
        "wind_bearing" (pyGet sub "wind_bearing"))
    | _ => .error .attributeError
  | _ => .ok data0

/-- The daily branch of the `forecast` property (`weather.py:331-369`):
keep the entries dated today or later (`strptime` needs a string —
`TypeError` otherwise; AEMET timestamps are ISO strings, so the
chronological order is the lexicographic one used here) and emit a record
for each. -/
def forecastDaily (todayStr : String) (hour : ℕ) :
    List PyDict → Except PyErr (List PyDict)
  | [] => .ok []
  | entry :: rest => do
    let ft ← match pyGet entry "datetime" with
      | .vstr s => Except.ok s
      | _ => Except.error PyErr.typeError
    if todayStr.toList ≤ ft.toList then do
      let d ← forecastDailyEntry entry hour
      let fc ← forecastDaily todayStr hour rest
      .ok (d :: fc)
    else forecastDaily todayStr hour rest

/-- When the day-level condition maps, `forecastDailyEntry` emits the base
record, whose `wind_bearing` holds the source's wind-speed value. -/
lemma forecastDailyEntry_cond_present (entry : PyDict) (hour : ℕ)
    (hc : mapCondition (pyGet entry "condition") ≠ .vnone) :
    forecastDailyEntry entry hour = .ok
      [("datetime", pyGet entry "datetime"),
       ("temperature", pyGet entry "temperature"),
       ("templow", pyGet entry "templow"),
       ("precipitation", pyGet entry "precipitation"),
       ("wind_speed", pyGet entry "wind_speed"),
       ("wind_bearing", pyGet entry "wind_speed"),
       ("condition", mapCondition (pyGet entry "condition"))] := by
  unfold forecastDailyEntry
  split
  · next hm => exact absurd hm hc
  · rfl

/-- **C10**: in daily mode every entry emitted by the `forecast` accessor
comes from a source record, and whenever the day-level condition is present
(maps to a HomeAssistant condition) the emitted `wind_bearing` equals the
source record's **wind-speed** value — so the emitted `wind_bearing` and
`wind_speed` fields coincide. -/
theorem forecast_daily_bearing_from_speed (todayStr : String) (hour : ℕ) :
    ∀ (entries fc : List PyDict),
      forecastDaily todayStr hour entries = .ok fc →
      ∀ d ∈ fc, ∃ e, e ∈ entries ∧ forecastDailyEntry e hour = .ok d ∧
        (mapCondition (pyGet e "condition") ≠ .vnone →
          pyGet d "wind_bearing" = pyGet e "wind_speed" ∧
          pyGet d "wind_bearing" = pyGet d "wind_speed") := by
  intro entries
  induction entries with
  | nil =>
    intro fc h d hd
    cases h
    cases hd
  | cons entry rest ih =>
    intro fc h d hd
    cases hft : pyGet entry "datetime" with
    | vstr s =>
      by_cases hgeq : todayStr.toList ≤ s.toList
      · cases hde : forecastDailyEntry entry hour with
        | error e =>
          simp only [forecastDaily, hft, if_pos hgeq, hde, bind, Except.bind] at h
          exact Except.noConfusion h
        | ok d0 =>
          cases hrec : forecastDaily todayStr hour rest with
          | error e =>
            simp only [forecastDaily, hft, if_pos hgeq, hde, hrec, bind,
              Except.bind] at h
            exact Except.noConfusion h
          | ok fc' =>
            simp only [forecastDaily, hft, if_pos hgeq, hde, hrec, bind,
              Except.bind, Except.ok.injEq] at h
            subst h
            rcases List.mem_cons.mp hd with rfl | hd'
            · refine ⟨entry, List.mem_cons_self _ _, hde, ?_⟩
              intro hc
              have hbase := forecastDailyEntry_cond_present entry hour hc
              rw [hde] at hbase
              injection hbase with hbase
              subst hbase
              exact ⟨rfl, rfl⟩
            · obtain ⟨e, he, h1, h2⟩ := ih fc' hrec d hd'
              exact ⟨e, List.mem_cons_of_mem _ he, h1, h2⟩
      · simp only [forecastDaily, hft, if_neg hgeq, bind, Except.bind] at h
        obtain ⟨e, he, h1, h2⟩ := ih fc h d hd
        exact ⟨e, List.mem_cons_of_mem _ he, h1, h2⟩
    | vnum q =>
      simp only [forecastDaily, hft, bind, Except.bind] at h
      exact Except.noConfusion h
    | vnone =>
      simp only [forecastDaily, hft, bind, Except.bind] at h
      exact Except.noConfusion h
    | vlist l =>
      simp only [forecastDaily, hft, bind, Except.bind] at h
      exact Except.noConfusion h
    | vdict dd =>
      simp only [forecastDaily, hft, bind, Except.bind] at h
      exact Except.noConfusion h

/-- A concrete daily record dated after `today` with a mapping day-level
condition. -/
def fcDailyEntryW : PyDict :=
  [("datetime", .vstr "2021-01-02T00:00:00"), ("temperature", .vnum 15),
   ("templow", .vnum 5), ("precipitation", .vnum 0),
   ("wind_speed", .vnum 10), ("wind_bearing", .vstr "N"),
   ("condition", .vstr "11")]

/-- Witness for C10 on the concrete record. -/
theorem forecast_daily_bearing_from_speed_witness :
    ∃ fc, forecastDaily "2021-01-01T00:00:00" 7 [fcDailyEntryW] = .ok fc ∧
      ∀ d ∈ fc, ∃ e, e ∈ [fcDailyEntryW] ∧ forecastDailyEntry e 7 = .ok d ∧
        (mapCondition (pyGet e "condition") ≠ .vnone →
          pyGet d "wind_bearing" = pyGet e "wind_speed" ∧
          pyGet d "wind_bearing" = pyGet d "wind_speed") :=
  ⟨_, rfl, forecast_daily_bearing_from_speed "2021-01-01T00:00:00" 7
    [fcDailyEntryW] _ rfl⟩
